import Mathlib

/-!
Shallow embedding of the `transcord` microphone capture pipeline:
the Sensitivity Controller / Capture Lifecycle Manager of
`src/lib/audio-recorder.ts` (class `AudioRecorder`) and the audio
worklet of `src/lib/worklets/audio-processing` (class
`AudioProcessingWorklet`), with the PCM decode step of the playback
path (`dataInt16[i] / 32768`).

Numbers are modelled as exact rationals (`ℚ`); the quantized PCM
values as integers (`ℤ`).  JavaScript `Int16Array` element conversion
(truncate toward zero, then wrap modulo 2^16 into `[-32768, 32767]`)
is modelled explicitly.
-/

set_option maxRecDepth 100000

namespace Transcord

/-! ### Sensitivity Controller state (`AudioRecorder`, audio-recorder.ts lines 38-57)

Fields are exactly the adaptive-state fields of the `AudioRecorder`
class.  `voiceFocus` is the mode flag; `speechHoldCounter` is a
natural number.  The platform handles (`stream`, `audioContext`,
worklets) carry no numeric state and are modelled separately in the
lifecycle model below. -/
structure SensState where
  currentGain : ℚ
  targetGain : ℚ
  noiseFloor : ℚ
  lastVolume : ℚ
  volumeHistory : List ℚ
  volumeMultiplier : ℚ
  targetVolumeMultiplier : ℚ
  voiceFocus : Bool
  speechHoldCounter : ℕ
  deriving Repr, DecidableEq

/-- Field initializers of `AudioRecorder` (audio-recorder.ts lines 39-52). -/
def initState : SensState :=
  { currentGain := 1
    targetGain := 1
    noiseFloor := 1/1000
    lastVolume := 0
    volumeHistory := []
    volumeMultiplier := 1
    targetVolumeMultiplier := 1
    voiceFocus := false
    speechHoldCounter := 0 }

/-- `HISTORY_SIZE = 8` (audio-recorder.ts line 44). -/
def HISTORY_SIZE : ℕ := 8

/-- `SPEECH_HOLD_FRAMES = 24` (audio-recorder.ts line 55). -/
def SPEECH_HOLD_FRAMES : ℕ := 24

/-- `NOISE_FLOOR_ATTACK = 0.01` (audio-recorder.ts line 56). -/
def NOISE_FLOOR_ATTACK : ℚ := 1/100

/-- `NOISE_FLOOR_DECAY = 0.00005` (audio-recorder.ts line 57). -/
def NOISE_FLOOR_DECAY : ℚ := 1/20000

/-- `maxGain = 12.0`, the documented MAX_GAIN (audio-recorder.ts line 116). -/
def maxGain : ℚ := 12

/-- `minGain = 0.1` (audio-recorder.ts line 115). -/
def minGain : ℚ := 1/10

/-- Step 1 of `updateSensitivity` (lines 70-74): push the volume and
`shift` (drop the oldest) once the history exceeds `HISTORY_SIZE`. -/
def newHistory (s : SensState) (volume : ℚ) : List ℚ :=
  let h := s.volumeHistory ++ [volume]
  if h.length > HISTORY_SIZE then h.tail else h

/-- `avgVolume` (line 76): mean of the updated rolling history. -/
def avgVolume (s : SensState) (volume : ℚ) : ℚ :=
  (newHistory s volume).sum / ((newHistory s volume).length : ℚ)

/-- Step 2 of `updateSensitivity` (lines 78-85): adaptive noise floor. -/
def newNoiseFloor (s : SensState) (volume : ℚ) : ℚ :=
  if volume < s.noiseFloor then
    s.noiseFloor * (1 - NOISE_FLOOR_ATTACK) + volume * NOISE_FLOOR_ATTACK
  else
    s.noiseFloor + NOISE_FLOOR_DECAY

/-- `volumeDelta` (line 88): onset detector input. -/
def volumeDelta (s : SensState) (volume : ℚ) : ℚ :=
  volume - s.lastVolume

/-- `snrMultiplier` (line 93): `voiceFocus ? 4.5 : 2.2`. -/
def snrMultiplier (s : SensState) : ℚ :=
  if s.voiceFocus then 9/2 else 11/5

/-- `baseOffset` (line 94): `voiceFocus ? 0.015 : 0.005`. -/
def baseOffset (s : SensState) : ℚ :=
  if s.voiceFocus then 3/200 else 1/200

/-- `dynamicThreshold` (line 95), computed from the updated noise floor. -/
def dynamicThreshold (s : SensState) (volume : ℚ) : ℚ :=
  newNoiseFloor s volume * snrMultiplier s + baseOffset s

/-- `onsetThreshold` (line 101): `voiceFocus ? 0.01 : 0.02`. -/
def onsetThreshold (s : SensState) : ℚ :=
  if s.voiceFocus then 1/100 else 1/50

/-- The trigger condition of line 104: instantaneous volume above the
dynamic threshold, or rolling average above it, or a sharp onset. -/
def trigger (s : SensState) (volume : ℚ) : Bool :=
  decide (volume > dynamicThreshold s volume) ||
  decide (avgVolume s volume > dynamicThreshold s volume) ||
  decide (volumeDelta s volume > onsetThreshold s)

/-- The local `isSpeaking` flag of lines 103-110: the trigger fires, or
the hold counter is still positive. -/
def isSpeakingOf (s : SensState) (volume : ℚ) : Bool :=
  trigger s volume || decide (s.speechHoldCounter > 0)

/-- Hold-counter update of lines 103-110: reset to `SPEECH_HOLD_FRAMES`
on a trigger, otherwise decrement toward zero. -/
def newCounter (s : SensState) (volume : ℚ) : ℕ :=
  if trigger s volume then SPEECH_HOLD_FRAMES else s.speechHoldCounter - 1

/-- `targetLevel` (line 114): `voiceFocus ? 0.75 : 0.5`. -/
def targetLevel (s : SensState) : ℚ :=
  if s.voiceFocus then 3/4 else 1/2

/-- Step 4 of `updateSensitivity` (lines 118-125): normalizing target
gain while speaking, hard gate to zero in silence. -/
def newTargetGain (s : SensState) (volume : ℚ) : ℚ :=
  if isSpeakingOf s volume then
    max minGain (min maxGain (targetLevel s / max (avgVolume s volume) (1/10000)))
  else 0

/-- Smoothing coefficient of lines 130-132: fast attack, slower release
(release is slower still in voice-focus mode). -/
def gainAlpha (s : SensState) (volume : ℚ) : ℚ :=
  if newTargetGain s volume > s.currentGain then 1/2
  else if s.voiceFocus then 1/10 else 1/5

/-- Step 5 of `updateSensitivity` (line 134): asymmetric gain smoothing. -/
def newCurrentGain (s : SensState) (volume : ℚ) : ℚ :=
  s.currentGain * (1 - gainAlpha s volume) + newTargetGain s volume * gainAlpha s volume

/-- Ducking blend of lines 137-138 with `duckingAlpha = 0.2`. -/
def newVolumeMultiplier (s : SensState) : ℚ :=
  s.volumeMultiplier * (1 - 1/5) + s.targetVolumeMultiplier * (1/5)

/-- `finalGain = currentGain * volumeMultiplier` (line 141), the value
posted to the recording worklet as a GainCommand when one is attached. -/
def finalGainOf (s : SensState) (volume : ℚ) : ℚ :=
  newCurrentGain s volume * newVolumeMultiplier s

/-- `updateSensitivity` (audio-recorder.ts lines 69-146) as a state
transformer: one invocation per reported RMS sample. -/
def updateSensitivity (s : SensState) (volume : ℚ) : SensState :=
  { currentGain := newCurrentGain s volume
    targetGain := newTargetGain s volume
    noiseFloor := newNoiseFloor s volume
    lastVolume := volume
    volumeHistory := newHistory s volume
    volumeMultiplier := newVolumeMultiplier s
    targetVolumeMultiplier := s.targetVolumeMultiplier
    voiceFocus := s.voiceFocus
    speechHoldCounter := newCounter s volume }

/-- `setVolumeMultiplier` (audio-recorder.ts lines 61-63): stores the
argument directly into `targetVolumeMultiplier`. -/
def setVolumeMultiplier (m : ℚ) (s : SensState) : SensState :=
  { s with targetVolumeMultiplier := m }

/-- `setVoiceFocus` (audio-recorder.ts lines 65-67). -/
def setVoiceFocus (b : Bool) (s : SensState) : SensState :=
  { s with voiceFocus := b }

/-- `handleStop` inside `stop()` (audio-recorder.ts lines 208-222):
the adaptive-state reset performed on stop.  Exactly the fields the
code assigns are reset; the others are carried over. -/
def stopReset (s : SensState) : SensState :=
  { s with
    currentGain := 1
    targetGain := 1
    volumeMultiplier := 1
    targetVolumeMultiplier := 1
    speechHoldCounter := 0
    lastVolume := 0
    volumeHistory := [] }

/-- Control-context events that mutate `SensState`: a reported RMS
sample, a `setVolumeMultiplier` call, or a `setVoiceFocus` call. -/
inductive REvent where
  | rms (v : ℚ)
  | setVol (m : ℚ)
  | setFocus (b : Bool)
  deriving Repr, DecidableEq

/-- One control-context event applied to the controller state. -/
def stepEvent (s : SensState) (e : REvent) : SensState :=
  match e with
  | REvent.rms v => updateSensitivity s v
  | REvent.setVol m => setVolumeMultiplier m s
  | REvent.setFocus b => setVoiceFocus b s

/-- Run a sequence of control-context events from the initial state. -/
def runEvents (evs : List REvent) : SensState :=
  evs.foldl stepEvent initState

/-- The `isSpeaking` outputs produced by feeding a list of RMS samples
through `updateSensitivity` from a given state. -/
def speakOutputs : SensState → List ℚ → List Bool
  | _, [] => []
  | s, v :: rest => isSpeakingOf s v :: speakOutputs (updateSensitivity s v) rest

/-- True when no sample in the list fires the trigger condition at the
state it is processed in. -/
def noTriggerRun : SensState → List ℚ → Bool
  | _, [] => true
  | s, v :: rest => !(trigger s v) && noTriggerRun (updateSensitivity s v) rest

/-! ### PCM quantization (worklet `processChunk`) and playback decode

`processChunk` (worklet source, part_003 lines 183-204) hard-clips each
gain-scaled sample to `[-1, 1]`, multiplies by 32768 and stores the
result into an `Int16Array`.  A JavaScript `Int16Array` store truncates
the value toward zero and wraps it modulo 2^16 into `[-32768, 32767]`.
The playback path (part_012 line 55, StreamingConsole.tsx line 35)
decodes with `dataInt16[i] / 32768`. -/

/-- JavaScript truncation toward zero, on exact rationals. -/
def ratTrunc (q : ℚ) : ℤ :=
  if 0 ≤ q then ⌊q⌋ else ⌈q⌉

/-- JavaScript `ToInt16`: truncate toward zero, wrap modulo 2^16 into
the signed 16-bit range. -/
def toInt16 (q : ℚ) : ℤ :=
  if 32768 ≤ ratTrunc q % 65536 then ratTrunc q % 65536 - 65536
  else ratTrunc q % 65536

/-- The safety hard clip of `processChunk` (part_003 lines 192-194):
`if (sample > 1.0) sample = 1.0; if (sample < -1.0) sample = -1.0`. -/
def hardClip (x : ℚ) : ℚ :=
  if x > 1 then 1 else if x < -1 then -1 else x

/-- The PCM16 quantization of `processChunk` (part_003 lines 192-198):
clip, scale by 32768, store into an `Int16Array` slot. -/
def pcm16OfSample (s : ℚ) : ℤ :=
  toInt16 (hardClip s * 32768)

/-- PCM16 playback decode (part_012 line 55): `dataInt16[i] / 32768`. -/
def decodePCM (v : ℤ) : ℚ :=
  (v : ℚ) / 32768

/-! ### Sample Processor state (worklet `processChunk` version)

The gain-interpolating worklet (part_003 lines 145-204): per-sample
smoothing of `currentGain` toward `targetGain` with
`smoothingFactor = 0.05`, and the `port.onmessage` handler
(lines 156-163) that stores a received GainCommand value directly into
`targetGain`. -/
structure ProcState where
  currentGain : ℚ
  targetGain : ℚ
  deriving Repr, DecidableEq

/-- Worklet field initializers (part_003 lines 152-153). -/
def initProc : ProcState :=
  { currentGain := 1, targetGain := 1 }

/-- The `port.onmessage` handler (part_003 lines 158-162): if the
message carries a `gain` field, assign it to `targetGain` as is. -/
def onGainMessage (g : ℚ) (s : ProcState) : ProcState :=
  { s with targetGain := g }

/-- Per-sample gain smoothing of `processChunk` (part_003 line 188):
`currentGain += (targetGain - currentGain) * smoothingFactor`. -/
def smoothedGain (s : ProcState) : ℚ :=
  s.currentGain + (s.targetGain - s.currentGain) * (1/20)

/-- One iteration of the `processChunk` loop (part_003 lines 186-199)
on one input sample: returns the updated worklet state and the PCM16
value written to the buffer. -/
def processSample (s : ProcState) (x : ℚ) : ProcState × ℤ :=
  let g := smoothedGain s
  ({ currentGain := g, targetGain := s.targetGain },
    pcm16OfSample (x * g))

/-! ### Worklet VAD (worklet `analyzeAndProcess` version, part_003 lines 7-119)

The adaptive-VAD worklet: noise floor tracking with
`NOISE_ATTACK = 0.05` / `NOISE_DECAY = 0.0005`, hysteresis thresholds
`activeThreshold = noiseFloor * 2.5 + 0.008` and
`sustainThreshold = noiseFloor * 1.5 + 0.004`, and a
`HANGOVER_MAX = 40` hold counter. -/
structure WVadState where
  noiseFloor : ℚ
  isSpeechDetected : Bool
  hangoverFrames : ℕ
  deriving Repr, DecidableEq

/-- `HANGOVER_MAX = 40` (part_003 line 23). -/
def HANGOVER_MAX : ℕ := 40

/-- Worklet noise-floor update (part_003 lines 59-63). -/
def wNoiseFloor (s : WVadState) (rms : ℚ) : ℚ :=
  if rms < s.noiseFloor * (6/5) then
    s.noiseFloor * (1 - 1/20) + rms * (1/20)
  else
    s.noiseFloor + 1/2000

/-- Entry threshold (part_003 line 66): `noiseFloor * 2.5 + 0.008`. -/
def activeThreshold (nf : ℚ) : ℚ :=
  nf * (5/2) + 1/125

/-- Exit threshold (part_003 line 67): `noiseFloor * 1.5 + 0.004`. -/
def sustainThreshold (nf : ℚ) : ℚ :=
  nf * (3/2) + 1/250

/-- Speech-flag update of `analyzeAndProcess` (part_003 lines 69-78):
set on crossing the entry threshold; cleared on falling below the exit
threshold only once the hangover counter is exhausted; otherwise kept. -/
def newSpeechFlag (s : WVadState) (rms : ℚ) : Bool :=
  if rms > activeThreshold (wNoiseFloor s rms) then true
  else if rms < sustainThreshold (wNoiseFloor s rms) then
    (if s.hangoverFrames > 0 then s.isSpeechDetected else false)
  else s.isSpeechDetected

/-- Hangover-counter update of `analyzeAndProcess` (part_003 lines
69-78): refilled to `HANGOVER_MAX` on the entry threshold, decremented
below the exit threshold (saturating at 0, where the code instead
clears the flag and leaves the counter at 0), otherwise unchanged. -/
def newHangover (s : WVadState) (rms : ℚ) : ℕ :=
  if rms > activeThreshold (wNoiseFloor s rms) then HANGOVER_MAX
  else if rms < sustainThreshold (wNoiseFloor s rms) then s.hangoverFrames - 1
  else s.hangoverFrames

/-- The VAD portion of `analyzeAndProcess` (part_003 lines 57-78):
noise-floor update followed by the hysteresis state machine. -/
def vadStep (s : WVadState) (rms : ℚ) : WVadState :=
  { noiseFloor := wNoiseFloor s rms
    isSpeechDetected := newSpeechFlag s rms
    hangoverFrames := newHangover s rms }

/-! ### Capture Lifecycle Manager (`AudioRecorder.start` / `stop`)

`start()` (audio-recorder.ts lines 148-205) assigns a fresh in-flight
promise to `this.starting` and unconditionally acquires a device
stream and builds a new worklet graph; it contains no check of
`this.starting`.  The model abstracts the platform calls as counters:
`streamsAcquired` counts `getUserMedia` acquisitions, `graphsBuilt`
counts worklet-graph constructions.  A completed `start()` sets
`recording = true` and clears `starting` (lines 198-200). -/
structure RecorderLifecycle where
  starting : Bool
  streamsAcquired : ℕ
  graphsBuilt : ℕ
  recording : Bool
  deriving Repr, DecidableEq

/-- The effect of one `start()` call that runs to completion
(audio-recorder.ts lines 148-205): the body never inspects
`this.starting`, so the acquisition happens regardless of an
in-flight attempt. -/
def startCall (s : RecorderLifecycle) : RecorderLifecycle :=
  { starting := false
    streamsAcquired := s.streamsAcquired + 1
    graphsBuilt := s.graphsBuilt + 1
    recording := true }

/-- The audio constraints passed to `getUserMedia` by `start()`
(audio-recorder.ts lines 155-163). -/
structure MediaTrackConstraints where
  echoCancellation : Bool
  noiseSuppression : Bool
  autoGainControl : Bool
  channelCount : ℕ
  sampleRate : ℕ
  deriving Repr, DecidableEq

/-- The constraint object of audio-recorder.ts lines 156-162, for the
recorder's configured sample rate. -/
def startAudioConstraints (sampleRate : ℕ) : MediaTrackConstraints :=
  { echoCancellation := true
    noiseSuppression := true
    autoGainControl := true
    channelCount := 1
    sampleRate := sampleRate }

/-! ## Theorems -/

/-- C2 counterexample: `stop()` does not restore the documented default
state.  After a single RMS sample of `1/2` the noise floor has drifted
to `0.00105`, and `stopReset` leaves it there, so the post-stop state
differs from `initState` in its `noiseFloor` field. -/
theorem stop_does_not_reset_noiseFloor :
    stopReset (updateSensitivity initState (1/2)) ≠ initState ∧
    (stopReset (updateSensitivity initState (1/2))).noiseFloor ≠ initState.noiseFloor :=
  ⟨of_decide_eq_true (by with_unfolding_all rfl),
   of_decide_eq_true (by with_unfolding_all rfl)⟩

/-- C2 (amended): `stop()` resets `currentGain`, `targetGain`, both
ducking multipliers, the speech hold counter, `lastVolume` and the
rolling volume history to their documented defaults, but preserves
`noiseFloor` (and the `voiceFocus` mode flag) from the session being
stopped. -/
theorem stop_resets_all_but_noiseFloor (s : SensState) :
    stopReset s =
      { initState with noiseFloor := s.noiseFloor, voiceFocus := s.voiceFocus } := by
  rfl

/-- C7 counterexample: the constraints `start()` passes to the platform
request `autoGainControl: true`, not the disabled AGC the claim
states. -/
theorem start_requests_platform_agc :
    ¬ (startAudioConstraints 16000).autoGainControl = false := by
  decide

/-- C7 (amended): `start()` acquires the audio input with echo
cancellation and noise suppression requested and with the platform's
automatic gain control also enabled (`autoGainControl: true`), mono at
the recorder's sample rate. -/
theorem start_constraints_enable_agc (sr : ℕ) :
    (startAudioConstraints sr).autoGainControl = true ∧
    (startAudioConstraints sr).echoCancellation = true ∧
    (startAudioConstraints sr).noiseSuppression = true ∧
    (startAudioConstraints sr).channelCount = 1 ∧
    (startAudioConstraints sr).sampleRate = sr :=
  ⟨rfl, rfl, rfl, rfl, rfl⟩

/-- C8 counterexample: from a lifecycle state with a start attempt
already in flight (`starting = true`, one stream acquired), a second
`start()` call still acquires another device stream — the body of
`start()` never consults `starting`. -/
theorem second_start_acquires_second_stream :
    (startCall { starting := true, streamsAcquired := 1, graphsBuilt := 1,
                 recording := false }).streamsAcquired ≠ 1 := by
  decide

/-- C8 (amended): `start()` is not guarded against concurrent
re-entry: every call acquires a fresh device stream and builds a fresh
worklet graph regardless of whether an earlier attempt is in flight;
the `starting` promise is only consumed by `stop()` to sequence
teardown. -/
theorem start_always_acquires (s : RecorderLifecycle) :
    (startCall s).streamsAcquired = s.streamsAcquired + 1 ∧
    (startCall s).graphsBuilt = s.graphsBuilt + 1 :=
  ⟨rfl, rfl⟩

/-- C10: `setVolumeMultiplier` stores its argument into
`targetVolumeMultiplier` without any validation, and the
`finalGain = currentGain * volumeMultiplier` value posted to the
processor is not clamped: after `setVolumeMultiplier 100` a single RMS
sample of `1/2` produces a posted gain of `104/5 = 20.8 > maxGain`. -/
theorem setVolumeMultiplier_unvalidated_finalGain_unclamped :
    (∀ (m : ℚ) (s : SensState),
      (setVolumeMultiplier m s).targetVolumeMultiplier = m) ∧
    finalGainOf (stepEvent initState (REvent.setVol 100)) (1/2) > maxGain :=
  ⟨fun _ _ => rfl, of_decide_eq_true (by with_unfolding_all rfl)⟩

/-- The hard clip of `processChunk` always lands in `[-1, 1]`. -/
theorem hardClip_bounds (x : ℚ) : -1 ≤ hardClip x ∧ hardClip x ≤ 1 := by
  unfold hardClip
  split_ifs with h1 h2
  · exact ⟨by norm_num, le_refl 1⟩
  · exact ⟨le_refl (-1), by norm_num⟩
  · exact ⟨le_of_not_lt h2, le_of_not_lt h1⟩

/-- The JavaScript `Int16Array` store always lands in the signed
16-bit range. -/
theorem toInt16_bounds (q : ℚ) : -32768 ≤ toInt16 q ∧ toInt16 q ≤ 32767 := by
  unfold toInt16
  have h0 : 0 ≤ ratTrunc q % 65536 := Int.emod_nonneg _ (by norm_num)
  have h1 : ratTrunc q % 65536 < 65536 := Int.emod_lt_of_pos _ (by norm_num)
  split_ifs with h <;> omega

/-- C6 counterexample: a GainCommand with the out-of-range value `100`
arriving at the processor is stored into `targetGain` as `100`, not
clamped to the documented safe range `[0, maxGain]`. -/
theorem gain_command_not_clamped :
    (onGainMessage 100 initProc).targetGain = 100 ∧
    ¬ (onGainMessage 100 initProc).targetGain ≤ maxGain := by
  refine ⟨rfl, ?_⟩
  intro h
  rw [maxGain] at h
  norm_num [onGainMessage, initProc] at h

/-- C6 (amended): a GainCommand value arriving at the processor is
stored into `targetGain` unvalidated and unclamped for every value,
and no error path exists (the handler is a plain assignment); the
processor's output nevertheless stays bounded for every input sample,
because each sample is hard-clipped to `[-1, 1]` before quantization,
so the emitted PCM values stay in the signed 16-bit range. -/
theorem gain_command_stored_output_bounded (g x : ℚ) (s : ProcState) :
    (onGainMessage g s).targetGain = g ∧
    (-1 ≤ hardClip (x * smoothedGain (onGainMessage g s)) ∧
      hardClip (x * smoothedGain (onGainMessage g s)) ≤ 1) ∧
    (-32768 ≤ (processSample (onGainMessage g s) x).2 ∧
      (processSample (onGainMessage g s) x).2 ≤ 32767) :=
  ⟨rfl, hardClip_bounds _, toInt16_bounds _⟩

/-- C3 counterexample: a single high-energy block (volume `1/2`)
surrounded by blocks at/below the tracked noise floor flips the VAD to
Speaking on that very block.  The two preceding low blocks do not
trigger (and are at/below the noise floor at their steps), the hold
counter is still zero, yet the `1/2` block makes `isSpeaking` true
immediately. -/
theorem single_block_flips_vad :
    isSpeakingOf initState (1/1000) = false ∧
    (1/1000 : ℚ) ≤ initState.noiseFloor ∧
    isSpeakingOf (updateSensitivity initState (1/1000)) (1/1000) = false ∧
    (1/1000 : ℚ) ≤ (updateSensitivity initState (1/1000)).noiseFloor ∧
    (updateSensitivity (updateSensitivity initState (1/1000))
      (1/1000)).speechHoldCounter = 0 ∧
    isSpeakingOf (updateSensitivity (updateSensitivity initState (1/1000))
      (1/1000)) (1/2) = true := by
  refine ⟨?_, of_decide_eq_true ?_, ?_, of_decide_eq_true ?_, ?_, ?_⟩ <;>
    with_unfolding_all rfl

/-- C3 (amended): the speech decision is a disjunction of the
instantaneous volume, the rolling-history average and the onset delta
against the dynamic threshold, so a single block whose instantaneous
volume exceeds the threshold flips the VAD to Speaking at once —
single-block transients are not rejected. -/
theorem instantaneous_volume_triggers_speech (s : SensState) (v : ℚ)
    (h : dynamicThreshold s v < v) : isSpeakingOf s v = true := by
  have ht : trigger s v = true := by
    unfold trigger
    simp only [Bool.or_eq_true, decide_eq_true_eq]
    exact Or.inl (Or.inl h)
  unfold isSpeakingOf
  rw [ht]
  rfl

/-- Witness for C3's amended theorem at the concrete state
`initState` and volume `1/2`. -/
theorem instantaneous_volume_triggers_speech_witness :
    dynamicThreshold initState (1/2) < 1/2 ∧
    isSpeakingOf initState (1/2) = true :=
  have h : dynamicThreshold initState (1/2) < 1/2 :=
    of_decide_eq_true (by with_unfolding_all rfl)
  ⟨h, instantaneous_volume_triggers_speech initState (1/2) h⟩

/-- The worklet noise floor stays nonnegative on nonnegative RMS. -/
theorem wNoiseFloor_nonneg (s : WVadState) (rms : ℚ)
    (hnf : 0 ≤ s.noiseFloor) (hrms : 0 ≤ rms) : 0 ≤ wNoiseFloor s rms := by
  unfold wNoiseFloor
  split_ifs with h
  · nlinarith
  · linarith

/-- C4: the worklet VAD (`analyzeAndProcess`) uses two distinct
thresholds with the exit threshold strictly below the entry threshold;
once Speaking, the state is maintained whenever the block RMS exceeds
the exit threshold `noiseFloor * 1.5 + 0.004`, and the hangover
counter decrements only when the RMS is below that exit threshold. -/
theorem vad_hysteresis_thresholds (s : WVadState) (rms : ℚ)
    (hnf : 0 ≤ s.noiseFloor) (hrms : 0 ≤ rms)
    (hh : s.hangoverFrames ≤ HANGOVER_MAX) :
    sustainThreshold (wNoiseFloor s rms) < activeThreshold (wNoiseFloor s rms) ∧
    (s.isSpeechDetected = true → sustainThreshold (wNoiseFloor s rms) < rms →
      (vadStep s rms).isSpeechDetected = true) ∧
    ((vadStep s rms).hangoverFrames < s.hangoverFrames →
      rms < sustainThreshold (wNoiseFloor s rms)) := by
  have hnf' : 0 ≤ wNoiseFloor s rms := wNoiseFloor_nonneg s rms hnf hrms
  refine ⟨?_, ?_, ?_⟩
  · unfold sustainThreshold activeThreshold
    linarith
  · intro hs hgt
    show newSpeechFlag s rms = true
    unfold newSpeechFlag
    rw [if_neg (not_lt_of_le hgt.le)]
    split_ifs with h1
    · rfl
    · exact hs
  · intro hdec
    have hdec' : newHangover s rms < s.hangoverFrames := hdec
    unfold newHangover at hdec'
    split_ifs at hdec' with h1 h2
    · exact absurd hdec' (by unfold HANGOVER_MAX at hh ⊢; omega)
    · exact h2
    · exact absurd hdec' (lt_irrefl _)

/-- Witness for C4 at a concrete state: noise floor `1/200`, Speaking,
hangover counter full, block RMS `1/20`. -/
theorem vad_hysteresis_thresholds_witness :
    sustainThreshold (wNoiseFloor ⟨1/200, true, 40⟩ (1/20)) <
      activeThreshold (wNoiseFloor ⟨1/200, true, 40⟩ (1/20)) ∧
    ((⟨1/200, true, 40⟩ : WVadState).isSpeechDetected = true →
      sustainThreshold (wNoiseFloor ⟨1/200, true, 40⟩ (1/20)) < 1/20 →
      (vadStep ⟨1/200, true, 40⟩ (1/20)).isSpeechDetected = true) ∧
    ((vadStep ⟨1/200, true, 40⟩ (1/20)).hangoverFrames <
        (⟨1/200, true, 40⟩ : WVadState).hangoverFrames →
      (1/20 : ℚ) < sustainThreshold (wNoiseFloor ⟨1/200, true, 40⟩ (1/20))) :=
  vad_hysteresis_thresholds ⟨1/200, true, 40⟩ (1/20)
    (of_decide_eq_true (by with_unfolding_all rfl))
    (of_decide_eq_true (by with_unfolding_all rfl))
    (by decide)

/-- Truncation toward zero is within one of its argument. -/
theorem ratTrunc_close (q : ℚ) : |q - (ratTrunc q : ℚ)| < 1 := by
  unfold ratTrunc
  split_ifs with h
  · rw [abs_sub_lt_iff]
    constructor
    · have := Int.sub_one_lt_floor q
      linarith
    · have := Int.floor_le q
      linarith
  · rw [abs_sub_lt_iff]
    constructor
    · have := Int.le_ceil q
      linarith
    · have := Int.ceil_lt_add_one q
      linarith

/-- For arguments in `[-32768, 32768)` the truncation lands in the
signed 16-bit range. -/
theorem ratTrunc_range (q : ℚ) (h1 : -32768 ≤ q) (h2 : q < 32768) :
    -32768 ≤ ratTrunc q ∧ ratTrunc q ≤ 32767 := by
  unfold ratTrunc
  split_ifs with h
  · constructor
    · have : (0:ℤ) ≤ ⌊q⌋ := Int.floor_nonneg.mpr h
      omega
    · have : ⌊q⌋ < (32768:ℤ) := Int.floor_lt.mpr (by exact_mod_cast h2)
      omega
  · constructor
    · have : (-32768:ℤ) ≤ ⌈q⌉ := Int.le_ceil_iff.mpr (by push_cast; linarith)
      omega
    · have : ⌈q⌉ ≤ (0:ℤ) := Int.ceil_le.mpr (by exact_mod_cast le_of_not_le h)
      omega

/-- On the unwrapped range, the `Int16Array` store is the identity. -/
theorem toInt16_of_range (q : ℚ) (h1 : -32768 ≤ ratTrunc q)
    (h2 : ratTrunc q ≤ 32767) : toInt16 q = ratTrunc q := by
  unfold toInt16
  have h0 : 0 ≤ ratTrunc q % 65536 := Int.emod_nonneg _ (by norm_num)
  have hl : ratTrunc q % 65536 < 65536 := Int.emod_lt_of_pos _ (by norm_num)
  split_ifs with h <;> omega

/-- C5 counterexample: at the sample `s = 1` the processor's actual
quantization (`sample * 32768` stored into an `Int16Array`) wraps to
`-32768`, which the playback decode maps to `-1`: the round-trip error
is `2`, not within one quantization step. -/
theorem pcm_roundtrip_fails_at_one :
    pcm16OfSample 1 = -32768 ∧
    decodePCM (pcm16OfSample 1) = -1 ∧
    ¬ |(1:ℚ) - decodePCM (pcm16OfSample 1)| ≤ 1/32768 := by
  refine ⟨by with_unfolding_all rfl, by with_unfolding_all rfl, ?_⟩
  intro h
  rw [show decodePCM (pcm16OfSample 1) = -1 by with_unfolding_all rfl] at h
  norm_num at h

/-- C5 (amended): the processor's quantization is truncation of
`sample * 32768` into an `Int16Array` (not `round(sample * 32767)`),
and for every sample `s` with `-1 ≤ s < 1` decoding by `/ 32768`
reconstructs `s` within one quantization step `1/32768`; at `s = 1`
exactly, the value wraps to `-32768` and decodes to `-1`. -/
theorem pcm_roundtrip_within_step (s : ℚ) (h1 : -1 ≤ s) (h2 : s < 1) :
    |s - decodePCM (pcm16OfSample s)| ≤ 1/32768 := by
  have hclip : hardClip s = s := by
    unfold hardClip
    rw [if_neg (by linarith), if_neg (by linarith)]
  have hlo : -32768 ≤ s * 32768 := by linarith
  have hhi : s * 32768 < 32768 := by linarith
  obtain ⟨hr1, hr2⟩ := ratTrunc_range (s * 32768) hlo hhi
  have hq : pcm16OfSample s = ratTrunc (s * 32768) := by
    unfold pcm16OfSample
    rw [hclip]
    exact toInt16_of_range _ hr1 hr2
  rw [hq]
  have hclose := ratTrunc_close (s * 32768)
  unfold decodePCM
  have heq : s - (ratTrunc (s * 32768) : ℚ) / 32768 =
      (s * 32768 - (ratTrunc (s * 32768) : ℚ)) / 32768 := by
    ring
  rw [heq, abs_div, abs_of_pos (by norm_num : (0:ℚ) < 32768)]
  rw [div_le_div_iff₀ (by norm_num) (by norm_num)]
  nlinarith [abs_nonneg (s * 32768 - (ratTrunc (s * 32768) : ℚ))]

/-- Witness for C5's amended theorem at the concrete sample `1/3`. -/
theorem pcm_roundtrip_within_step_witness :
    (-1 ≤ (1/3 : ℚ)) ∧ ((1/3 : ℚ) < 1) ∧
    |(1/3 : ℚ) - decodePCM (pcm16OfSample (1/3))| ≤ 1/32768 :=
  ⟨by norm_num, by norm_num,
    pcm_roundtrip_within_step (1/3) (by norm_num) (by norm_num)⟩

/-- The target gain is always in `[0, maxGain]`: either the hard gate
`0`, or the clamp `max minGain (min maxGain _)`. -/
theorem newTargetGain_bounds (s : SensState) (v : ℚ) :
    0 ≤ newTargetGain s v ∧ newTargetGain s v ≤ maxGain := by
  unfold newTargetGain
  split_ifs with h
  · constructor
    · have h1 : minGain ≤ max minGain (min maxGain (targetLevel s / max (avgVolume s v) (1/10000))) :=
        le_max_left _ _
      have h2 : (0:ℚ) ≤ minGain := by unfold minGain; norm_num
      linarith
    · apply max_le
      · unfold minGain maxGain; norm_num
      · exact le_trans (min_le_left _ _) (le_refl _)
  · constructor
    · exact le_refl 0
    · unfold maxGain; norm_num

/-- The smoothed gain is a convex blend of the previous gain and the
target gain, so it stays in `[0, maxGain]`. -/
theorem newCurrentGain_bounds (s : SensState) (v : ℚ)
    (h0 : 0 ≤ s.currentGain) (h1 : s.currentGain ≤ maxGain) :
    0 ≤ newCurrentGain s v ∧ newCurrentGain s v ≤ maxGain := by
  obtain ⟨ht0, ht1⟩ := newTargetGain_bounds s v
  unfold newCurrentGain gainAlpha
  unfold maxGain at *
  split_ifs with ha hb <;> constructor <;> linarith

/-- The ducking multiplier is a convex blend, so it stays in `[0, 1]`
while its target does. -/
theorem newVolumeMultiplier_bounds (s : SensState)
    (h0 : 0 ≤ s.volumeMultiplier) (h1 : s.volumeMultiplier ≤ 1)
    (h2 : 0 ≤ s.targetVolumeMultiplier) (h3 : s.targetVolumeMultiplier ≤ 1) :
    0 ≤ newVolumeMultiplier s ∧ newVolumeMultiplier s ≤ 1 := by
  unfold newVolumeMultiplier
  constructor <;> linarith

/-- The gain invariant carried through every control-context step:
`currentGain` in `[0, maxGain]` and both ducking multipliers in
`[0, 1]`. -/
def GainInv (s : SensState) : Prop :=
  0 ≤ s.currentGain ∧ s.currentGain ≤ maxGain ∧
  0 ≤ s.volumeMultiplier ∧ s.volumeMultiplier ≤ 1 ∧
  0 ≤ s.targetVolumeMultiplier ∧ s.targetVolumeMultiplier ≤ 1

/-- One event preserves the gain invariant, provided a
`setVolumeMultiplier` event carries a value in `[0, 1]`. -/
theorem stepEvent_inv (s : SensState) (e : REvent) (hInv : GainInv s)
    (he : ∀ m, e = REvent.setVol m → 0 ≤ m ∧ m ≤ 1) :
    GainInv (stepEvent s e) := by
  obtain ⟨h1, h2, h3, h4, h5, h6⟩ := hInv
  cases e with
  | rms v =>
    obtain ⟨hc0, hc1⟩ := newCurrentGain_bounds s v h1 h2
    obtain ⟨hm0, hm1⟩ := newVolumeMultiplier_bounds s h3 h4 h5 h6
    exact ⟨hc0, hc1, hm0, hm1, h5, h6⟩
  | setVol m =>
    obtain ⟨hm0, hm1⟩ := he m rfl
    exact ⟨h1, h2, h3, h4, hm0, hm1⟩
  | setFocus b =>
    exact ⟨h1, h2, h3, h4, h5, h6⟩

/-- The gain invariant holds after any event sequence whose
`setVolumeMultiplier` values lie in `[0, 1]`. -/
theorem foldl_gainInv (evs : List REvent) (s : SensState) (hInv : GainInv s)
    (h : ∀ m, REvent.setVol m ∈ evs → 0 ≤ m ∧ m ≤ 1) :
    GainInv (evs.foldl stepEvent s) := by
  induction evs generalizing s with
  | nil => exact hInv
  | cons e rest ih =>
    apply ih
    · apply stepEvent_inv s e hInv
      intro m hm
      exact h m (by rw [hm]; exact List.mem_cons_self _ _)
    · intro m hm
      exact h m (List.mem_cons_of_mem _ hm)

/-- C1: for every control-context event sequence in which each
`setVolumeMultiplier` call passes a value in `[0, 1]`, the resulting
`currentGain` lies in `[0, maxGain]`, and the
`finalGain = currentGain * volumeMultiplier` posted on the next RMS
sample lies in `[0, maxGain]` for every volume.  Applied to every
prefix of a trace, this bounds `currentGain` and every posted
`finalGain` at every step. -/
theorem gain_invariant_all_traces (evs : List REvent)
    (h : ∀ m, REvent.setVol m ∈ evs → 0 ≤ m ∧ m ≤ 1) :
    (0 ≤ (runEvents evs).currentGain ∧ (runEvents evs).currentGain ≤ maxGain) ∧
    ∀ v : ℚ, 0 ≤ finalGainOf (runEvents evs) v ∧
      finalGainOf (runEvents evs) v ≤ maxGain := by
  have hInv : GainInv (runEvents evs) := by
    apply foldl_gainInv evs initState _ h
    unfold GainInv initState maxGain
    norm_num
  obtain ⟨h1, h2, h3, h4, h5, h6⟩ := hInv
  refine ⟨⟨h1, h2⟩, fun v => ?_⟩
  obtain ⟨hc0, hc1⟩ := newCurrentGain_bounds (runEvents evs) v h1 h2
  obtain ⟨hm0, hm1⟩ := newVolumeMultiplier_bounds (runEvents evs) h3 h4 h5 h6
  unfold finalGainOf
  constructor
  · exact mul_nonneg hc0 hm0
  · calc newCurrentGain (runEvents evs) v * newVolumeMultiplier (runEvents evs)
        ≤ newCurrentGain (runEvents evs) v * 1 := by
          exact mul_le_mul_of_nonneg_left hm1 hc0
      _ = newCurrentGain (runEvents evs) v := mul_one _
      _ ≤ maxGain := hc1

/-- Witness for C1 at the concrete trace
`[setVolumeMultiplier (1/2), rms (1/2)]` and probe volume `3/10`. -/
theorem gain_invariant_all_traces_witness :
    0 ≤ finalGainOf (runEvents [REvent.setVol (1/2), REvent.rms (1/2)]) (3/10) ∧
    finalGainOf (runEvents [REvent.setVol (1/2), REvent.rms (1/2)]) (3/10) ≤ maxGain :=
  (gain_invariant_all_traces [REvent.setVol (1/2), REvent.rms (1/2)]
    (by
      intro m hm
      simp only [List.mem_cons, List.not_mem_nil, or_false] at hm
      rcases hm with hm | hm
      · rw [REvent.setVol.injEq] at hm
        rw [hm]
        norm_num
      · exact absurd hm (by simp))).2 (3/10)

/-- Along a run with no trigger, the `isSpeaking` output at offset `j`
is exactly "`j` is below the entry value of the hold counter": the
counter decrements once per block and the flag follows it. -/
theorem speakOutputs_countdown (vs : List ℚ) :
    ∀ s : SensState, noTriggerRun s vs = true →
    ∀ j, j < vs.length →
      (speakOutputs s vs).getD j false = decide (j < s.speechHoldCounter) := by
  induction vs with
  | nil =>
    intro s _ j hj
    exact absurd hj (by simp)
  | cons v rest ih =>
    intro s hn j hj
    have hn' : (!(trigger s v)) = true ∧ noTriggerRun (updateSensitivity s v) rest = true := by
      rw [noTriggerRun, Bool.and_eq_true] at hn
      exact hn
    have htf : trigger s v = false := by
      have := hn'.1
      rwa [Bool.not_eq_true'] at this
    cases j with
    | zero =>
      show isSpeakingOf s v = decide (0 < s.speechHoldCounter)
      unfold isSpeakingOf
      rw [htf, Bool.false_or]
    | succ j' =>
      have hstep : (speakOutputs s (v :: rest)).getD (j' + 1) false =
          (speakOutputs (updateSensitivity s v) rest).getD j' false := rfl
      rw [hstep, ih (updateSensitivity s v) hn'.2 j' (by simpa using hj)]
      have hcnt : (updateSensitivity s v).speechHoldCounter =
          s.speechHoldCounter - 1 := by
        show newCounter s v = s.speechHoldCounter - 1
        unfold newCounter
        rw [htf]
        simp
      rw [hcnt]
      simp only [decide_eq_decide]
      omega

/-- C9 (amended): after a block on which the trigger condition fires
(setting the hold counter to `SPEECH_HOLD_FRAMES`), if no subsequent
block fires the trigger again, the speaking flag stays true for
exactly `SPEECH_HOLD_FRAMES` further blocks and is false from the
block after that.  Counted from a mere volume drop the hold can last
longer, because the rolling-history average (or an onset) can re-fire
the trigger even when the instantaneous volume is below the
threshold. -/
theorem speaking_holds_exactly_hold_frames (s : SensState) (v : ℚ)
    (vs : List ℚ) (ht : trigger s v = true)
    (hn : noTriggerRun (updateSensitivity s v) vs = true) :
    isSpeakingOf s v = true ∧
    ∀ j, j < vs.length →
      (speakOutputs (updateSensitivity s v) vs).getD j false =
        decide (j < SPEECH_HOLD_FRAMES) := by
  constructor
  · unfold isSpeakingOf
    rw [ht, Bool.true_or]
  · intro j hj
    have hcnt : (updateSensitivity s v).speechHoldCounter = SPEECH_HOLD_FRAMES := by
      show newCounter s v = SPEECH_HOLD_FRAMES
      unfold newCounter
      rw [ht]
      simp
    rw [speakOutputs_countdown vs (updateSensitivity s v) hn j hj, hcnt]

/-- Witness for C9's amended theorem: a trigger at volume `1/125` from
the initial state, followed by 25 silent blocks; the speaking flag is
still true at offset 23 and false at offset 24. -/
theorem speaking_holds_exactly_hold_frames_witness :
    (speakOutputs (updateSensitivity initState (1/125))
      (List.replicate 25 (0:ℚ))).getD 23 false = true ∧
    (speakOutputs (updateSensitivity initState (1/125))
      (List.replicate 25 (0:ℚ))).getD 24 false = false := by
  have H := speaking_holds_exactly_hold_frames initState (1/125)
    (List.replicate 25 (0:ℚ))
    (by with_unfolding_all rfl)
    (by with_unfolding_all rfl)
  constructor
  · rw [H.2 23 (by simp)]
    rfl
  · rw [H.2 24 (by simp)]
    rfl

/-- C9 counterexample: eight loud blocks (`1/2`) put the VAD in
Speaking; the volume then drops to `1/10000`, below the tracked noise
floor (hence below any exit threshold derived from it).  Counting from
the drop, the claim demands the speaking flag revert after exactly
`SPEECH_HOLD_FRAMES = 24` blocks, but on the 25th block after the drop
it is still true: the rolling average keeps re-firing the trigger for
several blocks after the drop. -/
theorem hold_exceeds_hold_frames_after_drop :
    (1/10000 : ℚ) <
      ((List.replicate 8 ((1:ℚ)/2)).foldl updateSensitivity initState).noiseFloor ∧
    (speakOutputs initState
      (List.replicate 8 ((1:ℚ)/2) ++ List.replicate 25 ((1:ℚ)/10000))).getD 7 false
      = true ∧
    (speakOutputs initState
      (List.replicate 8 ((1:ℚ)/2) ++ List.replicate 25 ((1:ℚ)/10000))).getD 32 false
      = true := by
  refine ⟨of_decide_eq_true ?_, ?_, ?_⟩ <;> with_unfolding_all rfl

end Transcord
